import Mathlib

/-!
Shallow embedding of the telegram-financial-harvester pipeline
(`pipeline.py`, `signal_parser.py`, `state.py`, `webhook_client.py`).

Python values that flow through the untyped parts of the program (JSON
payloads, the persisted state file, webhook response bodies) are modelled by
the `JVal` type below.  Python dictionaries are modelled as association lists
with unique keys (`json.loads` keeps the last duplicate key, but no input in
this development carries duplicate keys).  Python exceptions are modelled by
the `PyExn` type and `Except`: a function that can raise returns
`Except PyExn _`; a `try/except` block is a `match` on that result.
-/

/-- A decoded JSON value / dynamically-typed Python value. -/
inductive JVal where
  | null
  | bool (b : Bool)
  | num (q : ℚ)
  | str (s : String)
  | arr (xs : List JVal)
  | obj (kvs : List (String × JVal))

/-- Python exception classes that the modelled code can raise or catch. -/
inductive PyExn where
  | attributeError
  | typeError
  | valueError
  | apiError (msg : String)

/-- Python truthiness (`bool(v)`) for the modelled value shapes. -/
def pyFalsy : JVal → Bool
  | .null => true
  | .bool b => !b
  | .num q => q = 0
  | .str s => s = ""
  | .arr xs => xs.isEmpty
  | .obj kvs => kvs.isEmpty

/-- Python string slicing `s[:n]` (by code points, as in Python). -/
def pySlice (s : String) (n : Nat) : String :=
  String.mk (s.data.take n)

/-- Python `str.upper()`; the source only ever uppercases ASCII ticker and
transaction-type strings, so ASCII uppercasing is modelled. -/
def pyUpper (s : String) : String :=
  String.mk (s.data.map Char.toUpper)

/-- Replace the value stored at a key in a dict, or append the binding when
the key is absent (Python `d[k] = v`). -/
def setKey : List (String × JVal) → String → JVal → List (String × JVal)
  | [], k, v => [(k, v)]
  | (k', v') :: rest, k, v =>
    if k' = k then (k, v) :: rest else (k', v') :: setKey rest k v

/-- Python `v.get(k, d)`: dictionary lookup with a default, raising
`AttributeError` when the receiver is not a dict. -/
def pyGet (v : JVal) (k : String) (d : JVal) : Except PyExn JVal :=
  match v with
  | .obj kvs => .ok ((List.lookup k kvs).getD d)
  | _ => .error .attributeError

/-- Python `v + n` for a dynamically-typed left operand and an int right
operand: ints (and bools, which are ints in Python) add, everything else
raises `TypeError`. -/
def pyAddInt (v : JVal) (n : Nat) : Except PyExn JVal :=
  match v with
  | .num q => .ok (.num (q + n))
  | .bool b => .ok (.num ((if b then (1 : ℚ) else 0) + n))
  | _ => .error .typeError

/-- Value of a list of decimal digit characters. -/
def digitsVal (ds : List Char) : ℚ :=
  ds.foldl (fun a c => a * 10 + ((c.toNat - 48 : Nat) : ℚ)) 0

/-- Python `float(s)` on a string, restricted to the plain decimal forms
(optional sign, digits, optional fractional part) that this program can
meet; exponent, infinity and whitespace forms are not modelled. -/
def pyParseFloatUnsigned (cs : List Char) : Option ℚ :=
  let intPart := cs.takeWhile Char.isDigit
  let rest := cs.dropWhile Char.isDigit
  match rest with
  | [] => if intPart.isEmpty then none else some (digitsVal intPart)
  | '.' :: fs =>
    let fracPart := fs.takeWhile Char.isDigit
    let rest2 := fs.dropWhile Char.isDigit
    if rest2.isEmpty = false then none
    else if intPart.isEmpty && fracPart.isEmpty then none
    else some (digitsVal intPart + digitsVal fracPart / (10 ^ fracPart.length : ℚ))
  | _ => none

/-- Python `float(s)` on a string (sign handling). -/
def pyParseFloat (s : String) : Option ℚ :=
  match s.data with
  | '-' :: cs => (pyParseFloatUnsigned cs).map Neg.neg
  | '+' :: cs => pyParseFloatUnsigned cs
  | cs => pyParseFloatUnsigned cs

/-- Python `float(v)` on a dynamically-typed value: numbers pass through,
bools coerce, parsable numeric strings parse (`ValueError` otherwise),
`None` and containers raise `TypeError`. -/
def pyFloat (v : JVal) : Except PyExn ℚ :=
  match v with
  | .num q => .ok q
  | .bool b => .ok (if b then 1 else 0)
  | .str s =>
    match pyParseFloat s with
    | some q => .ok q
    | none => .error .valueError
  | .null => .error .typeError
  | .arr _ => .error .typeError
  | .obj _ => .error .typeError

/-- Python `v.upper()` on a dynamically-typed value: strings uppercase,
anything else raises `AttributeError`. -/
def pyUpperJ (v : JVal) : Except PyExn String :=
  match v with
  | .str s => .ok (pyUpper s)
  | _ => .error .attributeError

/-!
## `state.py` — watermark store

The state file on disk is modelled by `StoreFile`:
missing, present-but-unreadable (`IOError` on open/read), present but not
decodable as JSON (`json.JSONDecodeError`), or decodable to some `JVal`
(which need not be a dict — `json.load` returns whatever the file holds).
`save_state` catches and logs `IOError`; disk-write failure leaves the file
unchanged and is not distinguished by any claim, so writes are modelled as
succeeding.
-/

/-- The `pipeline_state.json` file as found on disk. -/
inductive StoreFile where
  | missing
  | unreadable
  | invalidJson
  | jsonFile (v : JVal)

/-- `load_state`: returns the decoded file, or `{}` when the file is missing,
unreadable, or not valid JSON (both exception classes are caught). -/
def load_state : StoreFile → JVal
  | .missing => .obj []
  | .unreadable => .obj []
  | .invalidJson => .obj []
  | .jsonFile v => v

/-- `get_last_message_id`:
`state.get("channels", {}).get(str(channel_id), {}).get("last_message_id", 0)`.
Each `.get` raises `AttributeError` when its receiver is not a dict. -/
def get_last_message_id (f : StoreFile) (channel_id : Int) : Except PyExn JVal :=
  match pyGet (load_state f) "channels" (.obj []) with
  | .error e => .error e
  | .ok channels =>
    match pyGet channels (toString channel_id) (.obj []) with
    | .error e => .error e
    | .ok entry => pyGet entry "last_message_id" (.num 0)

/-- `set_last_message_id`: read-modify-write of the state file.  The Python
code inserts empty dicts for missing `channels`/channel keys and then assigns
`last_message_id`; every non-dict shape met on that path raises `TypeError`
(at the membership test or at item assignment, depending on the shape) before
anything is written. -/
def set_last_message_id (f : StoreFile) (channel_id : Int) (message_id : ℚ) :
    Except PyExn StoreFile :=
  match load_state f with
  | .obj kvs =>
    let kvs1 := if (List.lookup "channels" kvs).isSome then kvs
                else kvs ++ [("channels", JVal.obj [])]
    match (List.lookup "channels" kvs1).getD (.obj []) with
    | .obj ckvs =>
      let key := toString channel_id
      let ckvs1 := if (List.lookup key ckvs).isSome then ckvs
                   else ckvs ++ [(key, JVal.obj [])]
      match (List.lookup key ckvs1).getD (.obj []) with
      | .obj ekvs =>
        .ok (.jsonFile (.obj (setKey kvs1 "channels"
          (.obj (setKey ckvs1 key (.obj (setKey ekvs "last_message_id" (.num message_id))))))))
      | _ => .error .typeError
    | _ => .error .typeError
  | _ => .error .typeError

/-- `get_processed_count`: `state.get("total_processed", 0)`. -/
def get_processed_count (f : StoreFile) : Except PyExn JVal :=
  pyGet (load_state f) "total_processed" (.num 0)

/-- `increment_processed_count`:
`state["total_processed"] = state.get("total_processed", 0) + count`. -/
def increment_processed_count (f : StoreFile) (count : Nat) : Except PyExn StoreFile :=
  match load_state f with
  | .obj kvs =>
    match pyAddInt ((List.lookup "total_processed" kvs).getD (.num 0)) count with
    | .error e => .error e
    | .ok newv => .ok (.jsonFile (.obj (setKey kvs "total_processed" newv)))
  | _ => .error .attributeError

/-!
## `signal_parser.py` — extractor

A call to the remote model plus the two-stage JSON decode (direct decode,
then a fenced-code-block decode) is collapsed into `ParseInput`: what
`parse_message` observes after the decode stage.  The distinction between
the direct and the fenced decode does not affect behaviour; a fenced decode
that itself raises reaches the outer `except Exception` and, like the
undecodable case, produces no signal.
-/

/-- The six payload fields `parse_message` reads from the decoded JSON
object; `none` means the key is absent. -/
structure Payload where
  is_signal : Option JVal
  ticker : Option JVal
  politician_name : Option JVal
  transaction_type : Option JVal
  amount_range : Option JVal
  signal_date : Option JVal
  confidence : Option JVal

/-- What `parse_message` observes from the remote extraction call. -/
inductive ParseInput where
  | apiError (msg : String)
  | badResponse (text : String)
  | nonDictResponse (v : JVal)
  | payload (p : Payload)

/-- The `ParsedSignal` dataclass.  `politician_name`, `amount_range` and
`signal_date` are stored without type enforcement, so they keep the `JVal`
type (`data.get` yields `None`, modelled `.null`, for an absent key). -/
structure ParsedSignal where
  ticker : String
  politician_name : JVal
  transaction_type : String
  amount_range : JVal
  signal_date : JVal
  confidence : ℚ
  raw_message : String

/-- The validation pipeline of `parse_message` (lines 96-123), on a decoded
payload dict: `is_signal is False` check, falsy-ticker check,
transaction-type normalisation and check, signal-date fallback, and record
construction, in source order. -/
def validate_payload (p : Payload) (message_text timestamp : String) :
    Except PyExn (Option ParsedSignal) :=
  match p.is_signal with
  | some (JVal.bool false) => .ok none
  | _ =>
    let tickerV := p.ticker.getD .null
    if pyFalsy tickerV then .ok none
    else
      match pyUpperJ (p.transaction_type.getD (.str "")) with
      | .error e => .error e
      | .ok tt =>
        if tt ≠ "BUY" ∧ tt ≠ "SELL" then .ok none
        else
          let sdV := p.signal_date.getD .null
          let sd := if pyFalsy sdV then JVal.str (pySlice timestamp 10) else sdV
          match pyUpperJ tickerV with
          | .error e => .error e
          | .ok tick =>
            match (match p.confidence with
                   | none => Except.ok ((1 : ℚ) / 2)
                   | some v => pyFloat v) with
            | .error e => .error e
            | .ok conf =>
              .ok (some { ticker := tick
                          politician_name := p.politician_name.getD .null
                          transaction_type := tt
                          amount_range := p.amount_range.getD .null
                          signal_date := sd
                          confidence := conf
                          raw_message := pySlice message_text 500 })

/-- The body of `parse_message`'s `try` block: may raise (`Except.error`),
return `None` (`.ok none`), or return a record. -/
def parse_message_body (i : ParseInput) (message_text timestamp : String) :
    Except PyExn (Option ParsedSignal) :=
  match i with
  | .apiError m => .error (.apiError m)
  | .badResponse _ => .ok none
  | .nonDictResponse _ => .error .attributeError
  | .payload p => validate_payload p message_text timestamp

/-- `parse_message`: the `try` body with both `except` handlers, each of
which logs and returns `None`. -/
def parse_message (i : ParseInput) (message_text timestamp : String) :
    Option ParsedSignal :=
  match parse_message_body i message_text timestamp with
  | .ok r => r
  | .error _ => none

/-!
## `webhook_client.py` — delivery client

One `requests.post` call either yields an HTTP response (status plus body)
or raises a `requests.RequestException` (modelled `TransportOutcome.exn`).
`send_signal` evaluates `response.json() if response.content else {}`:
an empty body yields `{}`; a non-empty body either decodes to a `JVal` or
raises `requests.exceptions.JSONDecodeError`, which (requests >= 2.27) is a
`RequestException` and is caught by the same handler, producing the
`status_code 0` error dict.
-/

/-- The body of one HTTP response from the webhook. -/
inductive RespBody where
  | empty
  | invalid (exnMsg : String)
  | json (v : JVal)

/-- The outcome of one `requests.post` call. -/
inductive TransportOutcome where
  | response (status : Nat) (body : RespBody)
  | exn (msg : String)

/-- The dict returned by `WebhookClient.send_signal`: either
`{status_code, success, response}` or `{status_code: 0, success: False,
error}`. -/
inductive SendResult where
  | resp (status_code : Nat) (success : Bool) (response : JVal)
  | err (msg : String)

/-- `WebhookClient.send_signal` (classification part; the request payload
itself is opaque to every claim). -/
def send_signal (o : TransportOutcome) : SendResult :=
  match o with
  | .response st .empty => .resp st (st == 200) (.obj [])
  | .response st (.json v) => .resp st (st == 200) v
  | .response _ (.invalid m) => .err m
  | .exn m => .err m

/-- `result["success"]`. -/
def sendSuccess : SendResult → Bool
  | .resp _ s _ => s
  | .err _ => false

/-- `result.get("status_code")`. -/
def sendStatus : SendResult → Nat
  | .resp c _ _ => c
  | .err _ => 0

/-- `result.get("error") or result.get("response", {}).get("error",
"Unknown error")`: the first operand is the error dict's string (absent,
hence falsy `None`, for a response dict); the second raises
`AttributeError` when the response body is not a dict. -/
def errMsgOf (r : SendResult) : Except PyExn JVal :=
  match r with
  | .err m => .ok (if m = "" then .str "Unknown error" else .str m)
  | .resp _ _ body => pyGet body "error" (.str "Unknown error")

/-- One entry of the batch `errors` list. -/
structure ErrEntry where
  ticker : String
  error : JVal

/-- The summary dict built by `WebhookClient.send_signals_batch`. -/
structure BatchResults where
  total : Nat
  success : Nat
  failed : Nat
  duplicates : Nat
  errors : List ErrEntry

/-- One iteration of the `send_signals_batch` loop: success, duplicate
(status 409) or failed-with-reason. -/
def batchStep (env : Nat → TransportOutcome) (acc : BatchResults)
    (item : Nat × ParsedSignal) : Except PyExn BatchResults :=
  let r := send_signal (env item.1)
  if sendSuccess r then .ok { acc with success := acc.success + 1 }
  else if sendStatus r == 409 then .ok { acc with duplicates := acc.duplicates + 1 }
  else
    match errMsgOf r with
    | .error e => .error e
    | .ok em => .ok { acc with failed := acc.failed + 1
                               errors := acc.errors ++ [⟨item.2.ticker, em⟩] }

/-- `WebhookClient.send_signals_batch`: the i-th signal is sent and its
outcome `env i` classified, in input order, starting from the all-zero
summary with `total = len(signals)`. -/
def send_signals_batch (signals : List ParsedSignal) (env : Nat → TransportOutcome) :
    Except PyExn BatchResults :=
  signals.enum.foldlM (batchStep env)
    { total := signals.length, success := 0, failed := 0, duplicates := 0, errors := [] }

/-!
## `pipeline.py` — orchestrator

`run_pipeline` is driven by an environment: whether the channel entity can
be resolved, the channel's messages in Telethon iteration order (each paired
with the extraction outcome the remote model would produce for it), whether
a webhook client was constructed, and the per-signal transport outcomes of
the delivery step.  Telethon's `iter_messages(entity, min_id=m)` yields only
messages with `id > m`; a non-numeric watermark value handed to it cannot
index messages and is modelled as a collaborator `TypeError`.
-/

/-- One channel message as exposed by the message source (`message.text`
is `None` or a string). -/
structure Msg where
  id : Int
  text : Option String
  timestamp : String

/-- One entry of `messages_to_parse`, plus the extraction outcome for it. -/
structure Collected where
  id : Int
  text : String
  ts : String
  pi : ParseInput

/-- The external collaborators of one run. -/
structure PipelineEnv where
  canAccess : Bool
  msgs : List (Msg × ParseInput)
  hasWebhook : Bool
  sendEnv : Nat → TransportOutcome

/-- The arguments of `run_pipeline` that are plain data. -/
structure RunArgs where
  channel_id : Int
  full_scan : Bool
  dry_run : Bool
  limit : Option Int

/-- Python `if limit and count > limit: break` — a `None` or `0` limit never
breaks (0 is falsy). -/
def limitBreak (limit : Option Int) (count : Int) : Bool :=
  match limit with
  | none => false
  | some l => l ≠ 0 && l < count

/-- The message-collection loop (`pipeline.py` lines 101-116): skip falsy
texts, stop once the count exceeds a truthy limit, accumulate
`messages_to_parse` and the running `max_message_id` (initially `min_id`). -/
def collectLoop (limit : Option Int) :
    List (Msg × ParseInput) → Int → ℚ → List Collected × ℚ
  | [], _, maxId => ([], maxId)
  | (m, pi) :: rest, count, maxId =>
    match m.text with
    | none => collectLoop limit rest count maxId
    | some t =>
      if t = "" then collectLoop limit rest count maxId
      else
        let count1 := count + 1
        if limitBreak limit count1 then ([], maxId)
        else
          let maxId1 := max maxId (m.id : ℚ)
          let r := collectLoop limit rest count1 maxId1
          (⟨m.id, t, m.timestamp, pi⟩ :: r.1, r.2)

/-- The extraction loop (`pipeline.py` lines 134-141): one `parse_message`
call per collected message, keeping the signals. -/
def extract_signals (collected : List Collected) : List ParsedSignal :=
  collected.filterMap (fun c => parse_message c.pi c.text c.ts)

/-- The watermark commit (`pipeline.py` lines 176-181): only when not in
full-scan mode and the maximum observed id strictly exceeds the starting
id. -/
def commitWatermark (args : RunArgs) (st : StoreFile) (minId maxId : ℚ) :
    Except PyExn StoreFile :=
  if args.full_scan = false ∧ minId < maxId then
    set_last_message_id st args.channel_id maxId
  else .ok st

/-- The summary dict returned by `run_pipeline`: either the
`{"error": ...}` dict of the no-access path or the counts dict. -/
inductive Summary where
  | noAccess
  | counts (total_messages signals_found signals_sent duplicates errors : Nat)

/-- Watermark resolution (`pipeline.py` lines 74-82): full-scan mode forces
`min_id = 0`, incremental mode reads the store.  The value is then handed to
the message-source collaborator as `min_id`; a non-numeric value cannot
index messages there, modelled as a collaborator `TypeError`. -/
def resolve_min_id (full_scan : Bool) (store : StoreFile) (cid : Int) :
    Except PyExn ℚ :=
  match (if full_scan then Except.ok (JVal.num 0)
         else get_last_message_id store cid) with
  | .error e => .error e
  | .ok (JVal.num q) => .ok q
  | .ok _ => .error .typeError

/-- `run_pipeline`: watermark resolution, channel resolution, collection,
extraction, delivery (skipped in dry-run mode or without a webhook client),
lifetime-counter update, watermark commit.  The final `StoreFile` is the
state file after the run. -/
def run_pipeline (env : PipelineEnv) (args : RunArgs) (store : StoreFile) :
    Except PyExn (Summary × StoreFile) :=
  match resolve_min_id args.full_scan store args.channel_id with
  | .error e => .error e
  | .ok minId =>
      match env.canAccess with
      | false => .ok (.noAccess, store)
      | true =>
        let filtered := env.msgs.filter (fun mp => minId < (mp.1.id : ℚ))
        let cr := collectLoop args.limit filtered 0 minId
        if cr.1.isEmpty then .ok (.counts 0 0 0 0 0, store)
        else
          let signals := extract_signals cr.1
          if signals.isEmpty = false ∧ args.dry_run = false ∧ env.hasWebhook = true then
            match send_signals_batch signals env.sendEnv with
            | .error e => .error e
            | .ok wr =>
              match increment_processed_count store wr.success with
              | .error e => .error e
              | .ok store1 =>
                match commitWatermark args store1 minId cr.2 with
                | .error e => .error e
                | .ok store2 =>
                  .ok (.counts cr.1.length signals.length wr.success wr.duplicates wr.failed,
                       store2)
          else
            match commitWatermark args store minId cr.2 with
            | .error e => .error e
            | .ok store2 => .ok (.counts cr.1.length signals.length 0 0 0, store2)

/-- A sequence of pipeline runs against one evolving state file. -/
def runSeq : List (PipelineEnv × RunArgs) → StoreFile → Except PyExn StoreFile
  | [], st => .ok st
  | (e, a) :: rest, st =>
    match run_pipeline e a st with
    | .error err => .error err
    | .ok (_, st1) => runSeq rest st1

/-!
## Helper lemmas
-/

theorem toUpper_not_isLower (c : Char) : (Char.toUpper c).isLower = false := by
  have hbv : c.val.toNat = c.val.toBitVec.toNat := rfl
  unfold Char.toUpper
  simp only []
  by_cases h : c.toNat ≥ 97 ∧ c.toNat ≤ 122
  · rw [if_pos h]
    obtain ⟨h1, h2⟩ := h
    have hv : Nat.isValidChar (Char.toNat c - 32) := by
      left
      omega
    unfold Char.ofNat
    rw [dif_pos hv]
    unfold Char.ofNatAux Char.isLower
    simp only [ge_iff_le, Bool.and_eq_false_iff, decide_eq_false_iff_not, not_le]
    left
    intro hle
    rw [UInt32.le_def, BitVec.le_def] at hle
    simp at hle
    have hct : c.toNat = c.val.toBitVec.toNat := rfl
    omega
  · rw [if_neg h]
    unfold Char.isLower
    simp only [ge_iff_le, Bool.and_eq_false_iff, decide_eq_false_iff_not, not_le]
    unfold Char.toNat at h
    rcases Nat.lt_or_ge (c.val.toNat) 97 with h' | h'
    · left
      intro hle
      rw [UInt32.le_def, BitVec.le_def] at hle
      simp at hle
      omega
    · right
      have h2 : ¬ (c.val.toNat ≤ 122) := by
        intro hc
        exact h ⟨h', hc⟩
      intro hle
      rw [UInt32.le_def, BitVec.le_def] at hle
      simp at hle
      omega

theorem lookup_setKey_self (kvs : List (String × JVal)) (k : String) (v : JVal) :
    List.lookup k (setKey kvs k v) = some v := by
  induction kvs with
  | nil => simp [setKey]
  | cons hd tl ih =>
    cases hd with
    | mk k0 v0 =>
      by_cases h : k0 = k
      · simp [setKey, h]
      · have hbeq : (k == k0) = false := by
          simp [beq_eq_false_iff_ne]
          intro hc
          exact h hc.symm
        simp [setKey, h, List.lookup_cons, hbeq, ih]

theorem lookup_setKey_ne (kvs : List (String × JVal)) (k k' : String) (v : JVal)
    (hne : k' ≠ k) : List.lookup k' (setKey kvs k v) = List.lookup k' kvs := by
  have hbeq : (k' == k) = false := by simp [beq_eq_false_iff_ne, hne]
  induction kvs with
  | nil => simp [setKey, List.lookup_cons, hbeq]
  | cons hd tl ih =>
    cases hd with
    | mk k0 v0 =>
      by_cases h : k0 = k
      · subst h
        simp [setKey, List.lookup_cons, hbeq]
      · simp [setKey, h, List.lookup_cons, ih]

theorem lookup_append_single_ne (kvs : List (String × JVal)) (k k2 : String) (v : JVal)
    (hne : k ≠ k2) : List.lookup k (kvs ++ [(k2, v)]) = List.lookup k kvs := by
  have hbeq : (k == k2) = false := by simp [beq_eq_false_iff_ne, hne]
  rw [List.lookup_append]
  simp [List.lookup_cons, hbeq]

theorem get_after_set {f f' : StoreFile} {cid : Int} {mid : ℚ}
    (h : set_last_message_id f cid mid = .ok f') :
    get_last_message_id f' cid = .ok (.num mid) := by
  simp only [set_last_message_id] at h
  split at h
  case h_2 => exact Except.noConfusion h
  case h_1 kvs heq =>
    repeat split at h
    all_goals try exact Except.noConfusion h
    all_goals simp only [Except.ok.injEq] at h
    all_goals subst h
    all_goals unfold get_last_message_id load_state pyGet
    all_goals simp [lookup_setKey_self]

theorem processed_after_set {f f' : StoreFile} {cid : Int} {mid : ℚ}
    (h : set_last_message_id f cid mid = .ok f') :
    get_processed_count f' = get_processed_count f := by
  simp only [set_last_message_id] at h
  split at h
  case h_2 => exact Except.noConfusion h
  case h_1 kvs heq =>
    repeat split at h
    all_goals try exact Except.noConfusion h
    all_goals simp only [Except.ok.injEq] at h
    all_goals subst h
    all_goals unfold get_processed_count
    all_goals rw [heq]
    all_goals simp only [load_state, pyGet]
    all_goals rw [lookup_setKey_ne _ _ _ _ (by decide)]
    all_goals
      first
      | rfl
      | rw [lookup_append_single_ne _ _ _ _ (by decide)]

theorem get_after_increment {f f' : StoreFile} {n : Nat}
    (h : increment_processed_count f n = .ok f') :
    ∀ cid, get_last_message_id f' cid = get_last_message_id f cid := by
  intro cid
  unfold increment_processed_count at h
  split at h
  case h_2 => exact Except.noConfusion h
  case h_1 kvs heq =>
    split at h
    case h_1 => exact absurd h (by simp)
    case h_2 newv heq2 =>
      simp only [Except.ok.injEq] at h
      subst h
      unfold get_last_message_id
      rw [heq]
      simp only [load_state, pyGet]
      rw [lookup_setKey_ne _ _ _ _ (by decide)]

theorem commit_ok_cases {args : RunArgs} {st f' : StoreFile} {mn mx : ℚ}
    (h : commitWatermark args st mn mx = .ok f') :
    (f' = st ∧ ¬ (args.full_scan = false ∧ mn < mx)) ∨
    (args.full_scan = false ∧ mn < mx ∧ set_last_message_id st args.channel_id mx = .ok f') := by
  unfold commitWatermark at h
  split at h
  case isTrue hc => exact Or.inr ⟨hc.1, hc.2, h⟩
  case isFalse hc =>
    simp only [Except.ok.injEq] at h
    exact Or.inl ⟨h.symm, hc⟩

theorem collect_empty_max (limit : Option Int) (l : List (Msg × ParseInput))
    (c : Int) (mx : ℚ) (h : (collectLoop limit l c mx).1 = []) :
    (collectLoop limit l c mx).2 = mx := by
  induction l generalizing c mx with
  | nil => simp [collectLoop]
  | cons hd tl ih =>
    cases hd with
    | mk m pi =>
      unfold collectLoop at h ⊢
      match htext : m.text with
      | none =>
        simp only [htext] at h ⊢
        exact ih _ _ h
      | some t =>
        simp only [htext] at h ⊢
        by_cases ht : t = ""
        · simp only [ht, if_pos rfl] at h ⊢
          exact ih _ _ h
        · simp only [if_neg ht] at h ⊢
          by_cases hb : limitBreak limit (c + 1)
          · simp [hb] at h ⊢
          · simp [hb] at h

theorem resolve_ok {full : Bool} {store : StoreFile} {cid : Int} {q : ℚ}
    (h : resolve_min_id full store cid = .ok q) :
    (if full then Except.ok (JVal.num 0)
     else get_last_message_id store cid) = Except.ok (JVal.num q) := by
  unfold resolve_min_id at h
  split at h
  case h_1 => exact Except.noConfusion h
  case h_3 => exact Except.noConfusion h
  case h_2 q0 hres =>
    simp only [Except.ok.injEq] at h
    rw [hres, h]

/-- Inversion of a successful `run_pipeline`: the resolved watermark is a
number, and the final store is the initial store (early-return paths), or
the result of the watermark commit applied to the initial store, possibly
after the lifetime-counter update of a live delivery. -/
theorem run_ok_cases {env : PipelineEnv} {args : RunArgs} {store : StoreFile}
    {s : Summary} {f' : StoreFile}
    (h : run_pipeline env args store = .ok (s, f')) :
    ∃ minId : ℚ,
      resolve_min_id args.full_scan store args.channel_id = .ok minId ∧
      ((f' = store ∧ (s = .noAccess ∨ s = .counts 0 0 0 0 0) ∧
          (env.canAccess = false ∨
           ¬ minId < (collectLoop args.limit
              (env.msgs.filter (fun mp => minId < (mp.1.id : ℚ))) 0 minId).2))
       ∨ (env.canAccess = true ∧
          (∃ base, (base = store ∨ ∃ n, increment_processed_count store n = .ok base) ∧
            (args.dry_run = true → base = store) ∧
            commitWatermark args base minId (collectLoop args.limit
              (env.msgs.filter (fun mp => minId < (mp.1.id : ℚ))) 0 minId).2 = .ok f') ∧
          (args.dry_run = true → ∃ t fnd, s = .counts t fnd 0 0 0))) := by
  unfold run_pipeline at h
  split at h
  case h_1 => exact Except.noConfusion h
  case h_2 minId hres =>
    refine ⟨minId, hres, ?_⟩
    split at h
    case h_1 hacc =>
      simp only [Except.ok.injEq, Prod.mk.injEq] at h
      exact Or.inl ⟨h.2.symm, Or.inl h.1.symm, Or.inl hacc⟩
    case h_2 hacc =>
      dsimp only [] at h
      split at h
      case isTrue hempty =>
        simp only [Except.ok.injEq, Prod.mk.injEq] at h
        refine Or.inl ⟨h.2.symm, Or.inr h.1.symm, Or.inr ?_⟩
        have := collect_empty_max args.limit
          (env.msgs.filter (fun mp => minId < (mp.1.id : ℚ))) 0 minId
          (List.isEmpty_iff.mp hempty)
        rw [this]
        exact lt_irrefl minId
      case isFalse hempty =>
        split at h
        case isTrue hdeliver =>
          split at h
          case h_1 => exact Except.noConfusion h
          case h_2 wr hwr =>
            split at h
            case h_1 => exact Except.noConfusion h
            case h_2 store1 hinc =>
              split at h
              case h_1 => exact Except.noConfusion h
              case h_2 store2 hcommit =>
                simp only [Except.ok.injEq, Prod.mk.injEq] at h
                refine Or.inr ⟨hacc, ⟨store1, Or.inr ⟨wr.success, hinc⟩, ?_, ?_⟩, ?_⟩
                · intro hdry
                  exact absurd hdeliver.2.1 (by simp [hdry])
                · rw [← h.2]
                  exact hcommit
                · intro hdry
                  exact absurd hdeliver.2.1 (by simp [hdry])
        case isFalse hdeliver =>
          split at h
          case h_1 => exact Except.noConfusion h
          case h_2 store2 hcommit =>
            simp only [Except.ok.injEq, Prod.mk.injEq] at h
            refine Or.inr ⟨hacc, ⟨store, Or.inl rfl, fun _ => rfl, ?_⟩, ?_⟩
            · rw [← h.2]
              exact hcommit
            · intro _
              exact ⟨_, _, h.1.symm⟩

theorem run_full_scan_preserves {env : PipelineEnv} {args : RunArgs}
    {store : StoreFile} {s : Summary} {f' : StoreFile}
    (hfull : args.full_scan = true)
    (h : run_pipeline env args store = .ok (s, f')) :
    ∀ k, get_last_message_id f' k = get_last_message_id store k := by
  intro k
  obtain ⟨minId, hres, hcase⟩ := run_ok_cases h
  rcases hcase with ⟨hf, _, _⟩ | ⟨_, ⟨base, hbase, _, hcommit⟩, _⟩
  · rw [hf]
  · rcases commit_ok_cases hcommit with ⟨hf, _⟩ | ⟨hfull2, _, _⟩
    · subst hf
      rcases hbase with hb | ⟨n, hinc⟩
      · rw [hb]
      · exact get_after_increment hinc k
    · rw [hfull] at hfull2
      exact Bool.noConfusion hfull2

theorem run_advance {env : PipelineEnv} {args : RunArgs}
    {store : StoreFile} {s : Summary} {f' : StoreFile} {a : ℚ}
    (hfull : args.full_scan = false)
    (h : run_pipeline env args store = .ok (s, f'))
    (ha : get_last_message_id store args.channel_id = .ok (.num a)) :
    ∃ b, get_last_message_id f' args.channel_id = .ok (.num b) ∧ a ≤ b := by
  obtain ⟨minId, hres, hcase⟩ := run_ok_cases h
  have hmin : minId = a := by
    have := resolve_ok hres
    rw [hfull] at this
    simp only [Bool.false_eq_true, if_false] at this
    rw [ha] at this
    simp only [Except.ok.injEq, JVal.num.injEq] at this
    exact this.symm
  subst hmin
  rcases hcase with ⟨hf, _, _⟩ | ⟨_, ⟨base, hbase, _, hcommit⟩, _⟩
  · rw [hf]
    exact ⟨minId, ha, le_refl _⟩
  · have hbaseget : get_last_message_id base args.channel_id = .ok (.num minId) := by
      rcases hbase with hb | ⟨n, hinc⟩
      · rw [hb]
        exact ha
      · rw [get_after_increment hinc]
        exact ha
    rcases commit_ok_cases hcommit with ⟨hf, _⟩ | ⟨_, hlt, hset⟩
    · subst hf
      exact ⟨minId, hbaseget, le_refl _⟩
    · exact ⟨_, get_after_set hset, le_of_lt hlt⟩

theorem runSeq_advance {cid : Int} :
    ∀ (runs : List (PipelineEnv × RunArgs)) (store f' : StoreFile) (a : ℚ),
    (∀ x ∈ runs, x.2.full_scan = false ∧ x.2.channel_id = cid) →
    runSeq runs store = .ok f' →
    get_last_message_id store cid = .ok (.num a) →
    ∃ b, get_last_message_id f' cid = .ok (.num b) ∧ a ≤ b := by
  intro runs
  induction runs with
  | nil =>
    intro store f' a _ hseq ha
    unfold runSeq at hseq
    simp only [Except.ok.injEq] at hseq
    subst hseq
    exact ⟨a, ha, le_refl _⟩
  | cons hd tl ih =>
    intro store f' a hall hseq ha
    unfold runSeq at hseq
    split at hseq
    case h_1 => exact Except.noConfusion hseq
    case h_2 s1 st1 hrun =>
      have hhd := hall hd (List.mem_cons_self hd tl)
      rw [← hhd.2] at ha
      obtain ⟨b1, hb1, hab1⟩ := run_advance hhd.1 hrun ha
      rw [hhd.2] at hb1
      obtain ⟨b, hb, hbb⟩ := ih st1 f' b1
        (fun x hx => hall x (List.mem_cons_of_mem hd hx)) hseq hb1
      exact ⟨b, hb, le_trans hab1 hbb⟩

theorem batch_fold_inv (env : Nat → TransportOutcome) :
    ∀ (l : List (Nat × ParsedSignal)) (acc r : BatchResults),
    List.foldlM (batchStep env) acc l = .ok r →
    r.total = acc.total ∧
    r.success + r.duplicates + r.failed = acc.success + acc.duplicates + acc.failed + l.length ∧
    r.failed + acc.errors.length = r.errors.length + acc.failed := by
  intro l
  induction l with
  | nil =>
    intro acc r h
    simp only [List.foldlM_nil, pure, Except.pure] at h
    simp only [Except.ok.injEq] at h
    subst h
    refine ⟨rfl, by simp, by omega⟩
  | cons hd tl ih =>
    intro acc r h
    simp only [List.foldlM_cons] at h
    match hstep : batchStep env acc hd with
    | .error e =>
      rw [hstep] at h
      exact Except.noConfusion h
    | .ok acc1 =>
      rw [hstep] at h
      simp only [bind, Except.bind] at h
      have := ih acc1 r h
      unfold batchStep at hstep
      dsimp only [] at hstep
      split at hstep
      · simp only [Except.ok.injEq] at hstep
        subst hstep
        simp at this ⊢
        omega
      · split at hstep
        · simp only [Except.ok.injEq] at hstep
          subst hstep
          simp at this ⊢
          omega
        · split at hstep
          case h_1 => exact Except.noConfusion hstep
          case h_2 em hem =>
            simp only [Except.ok.injEq] at hstep
            subst hstep
            simp at this ⊢
            omega

theorem validate_some_inv {p : Payload} {t ts : String} {r : ParsedSignal}
    (h : validate_payload p t ts = .ok (some r)) :
    ∃ s, p.ticker.getD .null = .str s ∧ s ≠ "" ∧ r.ticker = pyUpper s ∧
    (r.transaction_type = "BUY" ∨ r.transaction_type = "SELL") ∧
    r.raw_message = pySlice t 500 ∧
    r.signal_date = (if pyFalsy (p.signal_date.getD .null) then JVal.str (pySlice ts 10)
                     else p.signal_date.getD .null) ∧
    (match p.confidence with
     | none => Except.ok ((1 : ℚ) / 2)
     | some v => pyFloat v) = .ok r.confidence := by
  unfold validate_payload at h
  split at h
  case h_1 => simp at h
  case h_2 =>
    dsimp only [] at h
    split at h
    case isTrue => simp at h
    case isFalse hfalsy =>
      split at h
      case h_1 => exact Except.noConfusion h
      case h_2 tt htt =>
        split at h
        case isTrue => simp at h
        case isFalse httv =>
          split at h
          case h_1 => exact Except.noConfusion h
          case h_2 tick htick =>
            split at h
            case h_1 => exact Except.noConfusion h
            case h_2 conf hconf =>
              simp only [Except.ok.injEq, Option.some.injEq] at h
              subst h
              have hstr : ∃ s, p.ticker.getD .null = .str s := by
                cases hx : p.ticker.getD .null <;>
                  rw [hx] at htick <;>
                  simp [pyUpperJ] at htick
                exact ⟨_, rfl⟩
              obtain ⟨s, hs⟩ := hstr
              rw [hs] at hfalsy htick
              simp only [pyUpperJ, Except.ok.injEq] at htick
              refine ⟨s, hs, ?_, ?_, ?_, rfl, rfl, ?_⟩
              · intro hcon
                rw [hcon] at hfalsy
                simp [pyFalsy] at hfalsy
              · exact htick.symm
              · rcases not_and_or.mp httv with hb | hse
                · exact Or.inl (not_not.mp hb)
                · exact Or.inr (not_not.mp hse)
              · exact hconf
  
theorem parse_is_signal_false {p : Payload} {t ts : String}
    (h : p.is_signal = some (JVal.bool false)) :
    parse_message (.payload p) t ts = none := by
  simp only [parse_message, parse_message_body, validate_payload, h]

theorem parse_ticker_falsy {p : Payload} {t ts : String}
    (h : pyFalsy (p.ticker.getD .null) = true) :
    parse_message (.payload p) t ts = none := by
  have hv : validate_payload p t ts = .ok none := by
    unfold validate_payload
    split
    · rfl
    · dsimp only []
      rw [if_pos h]
  simp only [parse_message, parse_message_body, hv]

theorem parse_tt_rejected {p : Payload} {t ts : String}
    (h : p.transaction_type = none ∨
         ∃ s, p.transaction_type = some (JVal.str s) ∧
              pyUpper s ≠ "BUY" ∧ pyUpper s ≠ "SELL") :
    parse_message (.payload p) t ts = none := by
  have htt : ∃ s, pyUpperJ (p.transaction_type.getD (JVal.str "")) = .ok s ∧
      s ≠ "BUY" ∧ s ≠ "SELL" := by
    rcases h with hnone | ⟨s, hs, hbu, hse⟩
    · refine ⟨pyUpper "", by rw [hnone]; rfl, by decide, by decide⟩
    · exact ⟨pyUpper s, by rw [hs]; rfl, hbu, hse⟩
  obtain ⟨s, hups, hbu, hse⟩ := htt
  have hv : validate_payload p t ts = .ok none ∨
      ∃ e, validate_payload p t ts = .error e := by
    unfold validate_payload
    split
    · exact Or.inl rfl
    · dsimp only []
      split
      · exact Or.inl rfl
      · rw [hups]
        dsimp only []
        rw [if_pos (show s ≠ "BUY" ∧ s ≠ "SELL" from ⟨hbu, hse⟩)]
        exact Or.inl rfl
  simp only [parse_message, parse_message_body]
  rcases hv with hv | ⟨e, hv⟩ <;> rw [hv]

theorem parse_conf_error {p : Payload} {t ts : String} {v : JVal} {e : PyExn}
    (hc : p.confidence = some v) (he : pyFloat v = .error e) :
    parse_message (.payload p) t ts = none := by
  have hv : validate_payload p t ts = .ok none ∨
      ∃ e2, validate_payload p t ts = .error e2 := by
    unfold validate_payload
    split
    · exact Or.inl rfl
    · dsimp only []
      split
      · exact Or.inl rfl
      · split
        · exact Or.inr ⟨_, rfl⟩
        · split
          · exact Or.inl rfl
          · split
            · exact Or.inr ⟨_, rfl⟩
            · rw [hc]
              dsimp only []
              rw [he]
              exact Or.inr ⟨_, rfl⟩
  simp only [parse_message, parse_message_body]
  rcases hv with hv | ⟨e2, hv⟩ <;> rw [hv]

theorem parse_some_inv {i : ParseInput} {t ts : String} {r : ParsedSignal}
    (h : parse_message i t ts = some r) :
    ∃ p, i = .payload p ∧ validate_payload p t ts = .ok (some r) := by
  cases i with
  | apiError m => exact Option.noConfusion h
  | badResponse s => exact Option.noConfusion h
  | nonDictResponse v => exact Option.noConfusion h
  | payload p =>
    refine ⟨p, rfl, ?_⟩
    unfold parse_message parse_message_body at h
    split at h
    case h_1 res hres =>
      rw [h] at hres
      exact hres
    case h_2 => exact Option.noConfusion h

theorem pyUpper_ne_empty {s : String} (h : s ≠ "") : pyUpper s ≠ "" := by
  unfold pyUpper
  intro hc
  apply h
  have hd : s.data.map Char.toUpper = [] := by
    have : (String.mk (s.data.map Char.toUpper)).data = (("" : String)).data := by rw [hc]
    simpa using this
  have hnil : s.data = [] := List.map_eq_nil_iff.mp hd
  cases s with
  | mk data =>
    simp only at hnil
    rw [hnil]

theorem pyUpper_no_lower (s : String) : ∀ c ∈ (pyUpper s).data, c.isLower = false := by
  intro c hc
  unfold pyUpper at hc
  simp only [List.mem_map] at hc
  obtain ⟨c0, _, hc0⟩ := hc
  rw [← hc0]
  exact toUpper_not_isLower c0

theorem pySlice_of_le {s : String} {n : Nat} (h : s.length ≤ n) : pySlice s n = s := by
  unfold pySlice
  have hlen : s.data.length ≤ n := h
  rw [List.take_of_length_le hlen]

theorem pySlice_length (s : String) (n : Nat) :
    (pySlice s n).length = min n s.length := by
  unfold pySlice
  show (s.data.take n).length = min n s.data.length
  exact List.length_take n s.data

/-!
## Claim theorems
-/

/-- C3: for every extraction payload that declares `is_signal` false, or
whose ticker is missing or empty, or whose transaction type (after
uppercasing) is not exactly BUY or SELL, `parse_message` returns no signal;
and every record it does return has a non-empty ticker with no lowercase
letters and a transaction type equal to BUY or SELL — no partially-filled
record is ever constructed. -/
theorem C3_validation_completeness :
    (∀ (p : Payload) (t ts : String), p.is_signal = some (JVal.bool false) →
       parse_message (.payload p) t ts = none)
  ∧ (∀ (p : Payload) (t ts : String), p.ticker = none ∨ p.ticker = some (JVal.str "") →
       parse_message (.payload p) t ts = none)
  ∧ (∀ (p : Payload) (t ts : String),
       (p.transaction_type = none ∨
        ∃ s, p.transaction_type = some (JVal.str s) ∧
             pyUpper s ≠ "BUY" ∧ pyUpper s ≠ "SELL") →
       parse_message (.payload p) t ts = none)
  ∧ (∀ (i : ParseInput) (t ts : String) (r : ParsedSignal),
       parse_message i t ts = some r →
       r.ticker ≠ "" ∧ (∀ c ∈ r.ticker.data, c.isLower = false) ∧
       (r.transaction_type = "BUY" ∨ r.transaction_type = "SELL")) := by
  refine ⟨?_, ?_, ?_, ?_⟩
  · intro p t ts h
    exact parse_is_signal_false h
  · intro p t ts h
    apply parse_ticker_falsy
    rcases h with h | h <;> rw [h] <;> rfl
  · intro p t ts h
    exact parse_tt_rejected h
  · intro i t ts r h
    obtain ⟨p, _, hv⟩ := parse_some_inv h
    obtain ⟨s, _, hne, htick, htt, _, _, _⟩ := validate_some_inv hv
    refine ⟨?_, ?_, htt⟩
    · rw [htick]
      exact pyUpper_ne_empty hne
    · rw [htick]
      exact pyUpper_no_lower s

/-- Witness for C3 at concrete inputs. -/
theorem C3_validation_completeness_witness :
    parse_message (.payload ⟨some (JVal.bool false), none, none, none, none, none, none⟩)
      "market news" "2024-01-01T00:00:00" = none :=
  C3_validation_completeness.1 _ "market news" "2024-01-01T00:00:00" rfl

/-- C7: the `raw_message` of every accepted signal is exactly the first 500
characters of the original message text: longer inputs are cut to the
500-character prefix and shorter inputs are stored unchanged. -/
theorem C7_truncation :
    ∀ (i : ParseInput) (t ts : String) (r : ParsedSignal),
    parse_message i t ts = some r →
    r.raw_message = pySlice t 500 ∧
    (t.length ≤ 500 → r.raw_message = t) ∧
    (500 ≤ t.length → r.raw_message.length = 500) := by
  intro i t ts r h
  obtain ⟨p, _, hv⟩ := parse_some_inv h
  obtain ⟨s, _, _, _, _, hraw, _, _⟩ := validate_some_inv hv
  refine ⟨hraw, ?_, ?_⟩
  · intro hle
    rw [hraw]
    exact pySlice_of_le hle
  · intro hge
    rw [hraw, pySlice_length]
    omega

/-- Witness for C7 at a concrete accepted signal. -/
theorem C7_truncation_witness :
    (ParsedSignal.mk "NVDA" JVal.null "BUY" JVal.null (JVal.str "2024-03-01") 1 "hi").raw_message =
      pySlice "hi" 500 :=
  (C7_truncation
    (.payload ⟨some (JVal.bool true), some (JVal.str "NVDA"), none, some (JVal.str "BUY"),
               none, some (JVal.str "2024-03-01"), some (JVal.num 1)⟩)
    "hi" "2024-03-01T00:00:00" _ rfl).1

/-- C8: when the payload's `signal_date` is absent or empty the accepted
signal's date is the first 10 characters of the input timestamp; a supplied
(truthy) `signal_date` is used unchanged. -/
theorem C8_date_fallback :
    ∀ (p : Payload) (t ts : String) (r : ParsedSignal),
    parse_message (.payload p) t ts = some r →
    ((p.signal_date = none ∨ p.signal_date = some (JVal.str "") →
        r.signal_date = JVal.str (pySlice ts 10)) ∧
     (∀ v, p.signal_date = some v → pyFalsy v = false → r.signal_date = v)) := by
  intro p t ts r h
  obtain ⟨p2, hp2, hv⟩ := parse_some_inv h
  have hpp : p2 = p := by
    injection hp2 with hpp
    exact hpp.symm
  subst hpp
  obtain ⟨s, _, _, _, _, _, hsd, _⟩ := validate_some_inv hv
  constructor
  · intro hcase
    rw [hsd]
    rcases hcase with hc | hc <;> rw [hc] <;> rfl
  · intro v hval htruthy
    rw [hsd, hval]
    simp only [Option.getD_some, htruthy]
    rfl

/-- Witness for C8 at a concrete accepted signal with absent date. -/
theorem C8_date_fallback_witness :
    (ParsedSignal.mk "NVDA" JVal.null "BUY" JVal.null
        (JVal.str (pySlice "2024-03-01T00:00:00" 10)) 1 "hi").signal_date =
      JVal.str (pySlice "2024-03-01T00:00:00" 10) :=
  (C8_date_fallback
    ⟨some (JVal.bool true), some (JVal.str "NVDA"), none, some (JVal.str "BUY"),
     none, none, some (JVal.num 1)⟩
    "hi" "2024-03-01T00:00:00" _ rfl).1 (Or.inl rfl)

/-- C2 counterexample: a payload carrying confidence 2.0 is accepted with
confidence 2.0, outside the claimed `[0.0, 1.0]` bound (no clamping is
performed). -/
theorem C2_confidence_counterexample :
    parse_message
      (.payload ⟨some (JVal.bool true), some (JVal.str "NVDA"), none,
                 some (JVal.str "BUY"), none, some (JVal.str "2024-03-01"),
                 some (JVal.num 2)⟩)
      "Rep bought NVDA" "2024-03-01T00:00:00" =
      some (ParsedSignal.mk "NVDA" JVal.null "BUY" JVal.null
              (JVal.str "2024-03-01") 2 "Rep bought NVDA") ∧
    (1 : ℚ) < (ParsedSignal.mk "NVDA" JVal.null "BUY" JVal.null
              (JVal.str "2024-03-01") 2 "Rep bought NVDA").confidence :=
  ⟨rfl, by norm_num⟩

/-- C2 (amended): an accepted signal's confidence is the payload value
coerced with Python `float`, with 0.5 used only when the field is absent;
an unparsable confidence rejects the whole message (no signal) instead of
defaulting, and no `[0, 1]` clamping is applied. -/
theorem C2_confidence_amended :
    (∀ (p : Payload) (t ts : String) (r : ParsedSignal),
       parse_message (.payload p) t ts = some r →
       (p.confidence = none → r.confidence = 1 / 2) ∧
       (∀ v, p.confidence = some v → pyFloat v = .ok r.confidence))
  ∧ (∀ (p : Payload) (t ts : String) (v : JVal) (e : PyExn),
       p.confidence = some v → pyFloat v = .error e →
       parse_message (.payload p) t ts = none) := by
  constructor
  · intro p t ts r h
    obtain ⟨p2, hp2, hv⟩ := parse_some_inv h
    have hpp : p2 = p := by
      injection hp2 with hpp
      exact hpp.symm
    subst hpp
    obtain ⟨s, _, _, _, _, _, _, hconf⟩ := validate_some_inv hv
    constructor
    · intro hnone
      rw [hnone] at hconf
      simp only [Except.ok.injEq] at hconf
      exact hconf.symm
    · intro v hval
      rw [hval] at hconf
      exact hconf
  · intro p t ts v e hc he
    exact parse_conf_error hc he

/-- Witness for C2 (amended) at a concrete accepted signal. -/
theorem C2_confidence_amended_witness :
    (ParsedSignal.mk "NVDA" JVal.null "BUY" JVal.null (JVal.str "2024-03-01")
        (1 / 2) "hi").confidence = 1 / 2 :=
  (C2_confidence_amended.1
    ⟨some (JVal.bool true), some (JVal.str "NVDA"), none, some (JVal.str "BUY"),
     none, some (JVal.str "2024-03-01"), none⟩
    "hi" "2024-03-01T00:00:00" _ rfl).1 rfl

/-- C6: transport errors from the extraction call and unparsable or
non-object responses are absorbed inside `parse_message` (no signal, never
an uncaught fault), every raising path of the body is caught, and the
extraction loop returns at most one signal per collected message. -/
theorem C6_per_message_isolation :
    (∀ (m t ts : String), parse_message (.apiError m) t ts = none)
  ∧ (∀ (s t ts : String), parse_message (.badResponse s) t ts = none)
  ∧ (∀ (v : JVal) (t ts : String), parse_message (.nonDictResponse v) t ts = none)
  ∧ (∀ (i : ParseInput) (t ts : String) (e : PyExn),
       parse_message_body i t ts = .error e → parse_message i t ts = none)
  ∧ (∀ l : List Collected, (extract_signals l).length ≤ l.length) := by
  refine ⟨fun m t ts => rfl, fun s t ts => rfl, fun v t ts => rfl, ?_, ?_⟩
  · intro i t ts e h
    unfold parse_message
    rw [h]
  · intro l
    exact List.length_filterMap_le _ _

/-- Witness for C6's caught-exception part at a concrete input. -/
theorem C6_per_message_isolation_witness :
    parse_message (.nonDictResponse (JVal.arr [])) "m" "2024-01-01" = none :=
  (C6_per_message_isolation.2.2.2.1 (.nonDictResponse (JVal.arr []))
    "m" "2024-01-01" .attributeError rfl)

/-- C5 counterexample: an HTTP 200 response whose non-empty body is not
decodable JSON makes `response.json()` raise; the exception is caught and
the delivery is counted as a failure (not a success), with the decode
exception text as the reason. -/
theorem C5_outcome_counterexample :
    send_signals_batch
      [ParsedSignal.mk "NVDA" JVal.null "BUY" JVal.null (JVal.str "2024-03-01") 1 "m"]
      (fun _ => .response 200 (.invalid "Expecting value: line 1 column 1")) =
      .ok (BatchResults.mk 1 0 1 0
            [ErrEntry.mk "NVDA" (JVal.str "Expecting value: line 1 column 1")]) ∧
    (BatchResults.mk 1 0 1 0
      [ErrEntry.mk "NVDA" (JVal.str "Expecting value: line 1 column 1")]).success = 0 :=
  ⟨rfl, rfl⟩

/-- C5 (amended): per delivered signal, HTTP 200 with an empty or
JSON-decodable body counts as a success; HTTP 409 with an empty or
JSON-decodable body counts as a duplicate and never as a failure; an
undecodable non-empty body (whatever the status) or a transport exception
counts as a failure whose reason is the exception text when non-empty, else
"Unknown error"; any other status with an empty body or a body decoding to
a JSON object counts as a failure whose reason is the object's error field
when present, else "Unknown error"; but any other status whose body decodes
to JSON that is not an object raises `AttributeError` while the failure
reason is being built, aborting the whole batch instead of counting a
failure. -/
theorem C5_outcome_classification_amended :
    (∀ (env : Nat → TransportOutcome) (acc : BatchResults) (i : Nat) (s : ParsedSignal),
       env i = .response 200 .empty →
       batchStep env acc (i, s) = .ok { acc with success := acc.success + 1 })
  ∧ (∀ (env : Nat → TransportOutcome) (acc : BatchResults) (i : Nat) (s : ParsedSignal)
       (v : JVal), env i = .response 200 (.json v) →
       batchStep env acc (i, s) = .ok { acc with success := acc.success + 1 })
  ∧ (∀ (env : Nat → TransportOutcome) (acc : BatchResults) (i : Nat) (s : ParsedSignal),
       env i = .response 409 .empty →
       batchStep env acc (i, s) = .ok { acc with duplicates := acc.duplicates + 1 })
  ∧ (∀ (env : Nat → TransportOutcome) (acc : BatchResults) (i : Nat) (s : ParsedSignal)
       (v : JVal), env i = .response 409 (.json v) →
       batchStep env acc (i, s) = .ok { acc with duplicates := acc.duplicates + 1 })
  ∧ (∀ (env : Nat → TransportOutcome) (acc : BatchResults) (i : Nat) (s : ParsedSignal)
       (st : Nat) (kvs : List (String × JVal)), st ≠ 200 → st ≠ 409 →
       env i = .response st (.json (.obj kvs)) →
       batchStep env acc (i, s) = .ok { acc with
         failed := acc.failed + 1
         errors := acc.errors ++
           [⟨s.ticker, (List.lookup "error" kvs).getD (.str "Unknown error")⟩] })
  ∧ (∀ (env : Nat → TransportOutcome) (acc : BatchResults) (i : Nat) (s : ParsedSignal)
       (st : Nat), st ≠ 200 → st ≠ 409 → env i = .response st .empty →
       batchStep env acc (i, s) = .ok { acc with
         failed := acc.failed + 1
         errors := acc.errors ++ [⟨s.ticker, .str "Unknown error"⟩] })
  ∧ (∀ (env : Nat → TransportOutcome) (acc : BatchResults) (i : Nat) (s : ParsedSignal)
       (m : String), m ≠ "" → env i = .exn m →
       batchStep env acc (i, s) = .ok { acc with
         failed := acc.failed + 1
         errors := acc.errors ++ [⟨s.ticker, .str m⟩] })
  ∧ (∀ (env : Nat → TransportOutcome) (acc : BatchResults) (i : Nat) (s : ParsedSignal)
       (m : String) (st : Nat), m ≠ "" → env i = .response st (.invalid m) →
       batchStep env acc (i, s) = .ok { acc with
         failed := acc.failed + 1
         errors := acc.errors ++ [⟨s.ticker, .str m⟩] })
  ∧ (∀ (env : Nat → TransportOutcome) (acc : BatchResults) (i : Nat) (s : ParsedSignal),
       env i = .exn "" →
       batchStep env acc (i, s) = .ok { acc with
         failed := acc.failed + 1
         errors := acc.errors ++ [⟨s.ticker, .str "Unknown error"⟩] })
  ∧ (∀ (env : Nat → TransportOutcome) (acc : BatchResults) (i : Nat) (s : ParsedSignal)
       (st : Nat) (v : JVal), st ≠ 200 → st ≠ 409 →
       (v = JVal.null ∨ (∃ b, v = JVal.bool b) ∨ (∃ q, v = JVal.num q) ∨
        (∃ m, v = JVal.str m) ∨ (∃ xs, v = JVal.arr xs)) →
       env i = .response st (.json v) →
       batchStep env acc (i, s) = .error .attributeError)
  ∧ (∀ (sig : ParsedSignal) (rest : List ParsedSignal) (env : Nat → TransportOutcome)
       (st : Nat) (v : JVal), st ≠ 200 → st ≠ 409 →
       (v = JVal.null ∨ (∃ b, v = JVal.bool b) ∨ (∃ q, v = JVal.num q) ∨
        (∃ m, v = JVal.str m) ∨ (∃ xs, v = JVal.arr xs)) →
       env 0 = .response st (.json v) →
       send_signals_batch (sig :: rest) env = .error .attributeError) := by
  have habort : ∀ (env : Nat → TransportOutcome) (acc : BatchResults) (i : Nat)
      (s : ParsedSignal) (st : Nat) (v : JVal), st ≠ 200 → st ≠ 409 →
      (v = JVal.null ∨ (∃ b, v = JVal.bool b) ∨ (∃ q, v = JVal.num q) ∨
       (∃ m, v = JVal.str m) ∨ (∃ xs, v = JVal.arr xs)) →
      env i = .response st (.json v) →
      batchStep env acc (i, s) = .error .attributeError := by
    intro env acc i s st v h200 h409 hshape h
    have hb200 : (st == 200) = false := by simpa using h200
    have hb409 : (st == 409) = false := by simpa using h409
    rcases hshape with hv | ⟨b, hv⟩ | ⟨q, hv⟩ | ⟨m, hv⟩ | ⟨xs, hv⟩ <;>
      subst hv <;>
      simp [batchStep, h, send_signal, sendSuccess, sendStatus, hb200, hb409,
            errMsgOf, pyGet]
  refine ⟨?_, ?_, ?_, ?_, ?_, ?_, ?_, ?_, ?_, habort, ?_⟩
  · intro env acc i s h
    simp [batchStep, h, send_signal, sendSuccess]
  · intro env acc i s v h
    simp [batchStep, h, send_signal, sendSuccess]
  · intro env acc i s h
    simp [batchStep, h, send_signal, sendSuccess, sendStatus]
  · intro env acc i s v h
    simp [batchStep, h, send_signal, sendSuccess, sendStatus]
  · intro env acc i s st kvs h200 h409 h
    have hb200 : (st == 200) = false := by simpa using h200
    have hb409 : (st == 409) = false := by simpa using h409
    simp [batchStep, h, send_signal, sendSuccess, sendStatus, hb200, hb409,
          errMsgOf, pyGet]
  · intro env acc i s st h200 h409 h
    have hb200 : (st == 200) = false := by simpa using h200
    have hb409 : (st == 409) = false := by simpa using h409
    simp [batchStep, h, send_signal, sendSuccess, sendStatus, hb200, hb409,
          errMsgOf, pyGet]
  · intro env acc i s m hm h
    simp [batchStep, h, send_signal, sendSuccess, sendStatus, errMsgOf, hm]
  · intro env acc i s m st hm h
    simp [batchStep, h, send_signal, sendSuccess, sendStatus, errMsgOf, hm]
  · intro env acc i s h
    simp [batchStep, h, send_signal, sendSuccess, sendStatus, errMsgOf]
  · intro sig rest env st v h200 h409 hshape h0
    have hstep := habort env
      { total := (sig :: rest).length, success := 0, failed := 0,
        duplicates := 0, errors := [] } 0 sig st v h200 h409 hshape h0
    unfold send_signals_batch
    simp only [List.enum, List.enumFrom, List.foldlM]
    rw [hstep]
    rfl

/-- Witness for C5 (amended) at concrete inputs. -/
theorem C5_outcome_classification_amended_witness :
    batchStep (fun _ => .response 200 .empty)
      (BatchResults.mk 3 0 0 0 [])
      (0, ParsedSignal.mk "NVDA" JVal.null "BUY" JVal.null (JVal.str "2024-03-01") 1 "m") =
      .ok (BatchResults.mk 3 1 0 0 []) :=
  C5_outcome_classification_amended.1 _ _ 0 _ rfl

/-- C10: whenever `send_signals_batch` returns a summary, the success,
duplicate and failed counts add up to the total, the total is the length of
the input list, and the errors list has exactly one entry per failed
signal. -/
theorem C10_batch_conservation :
    ∀ (signals : List ParsedSignal) (env : Nat → TransportOutcome) (r : BatchResults),
    send_signals_batch signals env = .ok r →
    r.success + r.duplicates + r.failed = r.total ∧
    r.total = signals.length ∧
    r.errors.length = r.failed := by
  intro signals env r h
  unfold send_signals_batch at h
  have hinv := batch_fold_inv env signals.enum _ _ h
  simp only [List.enum_length, List.length_nil] at hinv
  refine ⟨?_, ?_, ?_⟩ <;> omega

/-- Witness for C10 at a concrete two-signal batch. -/
theorem C10_batch_conservation_witness :
    (1 : Nat) + 1 + 0 = 2 ∧ (2 : Nat) = 2 ∧ (0 : Nat) = 0 := by
  have h := C10_batch_conservation
    [ParsedSignal.mk "NVDA" JVal.null "BUY" JVal.null (JVal.str "2024-03-01") 1 "m",
     ParsedSignal.mk "AAPL" JVal.null "SELL" JVal.null (JVal.str "2024-03-02") 1 "m2"]
    (fun i => if i == 0 then .response 200 .empty else .response 409 .empty)
    (BatchResults.mk 2 1 0 1 []) rfl
  exact h

/-- C9 counterexample: a state file holding valid JSON that is not an
object (here the empty list `[]`) holds no entry for the channel, yet
`get_last_message_id` raises `AttributeError` instead of returning the
empty-state default 0. -/
theorem C9_degraded_storage_counterexample :
    get_last_message_id (.jsonFile (.arr [])) 7 = .error .attributeError :=
  rfl

/-- C9 (amended): `get_last_message_id` returns 0 when the state file is
missing, unreadable, or not valid JSON, and when the decoded object (with
object-shaped channels and channel entries) lacks the channels key, the
channel key, or the `last_message_id` key; a decoded non-object value at
any of those access points raises `AttributeError` instead of degrading. -/
theorem C9_degraded_storage_amended :
    (∀ cid : Int, get_last_message_id .missing cid = .ok (.num 0))
  ∧ (∀ cid : Int, get_last_message_id .unreadable cid = .ok (.num 0))
  ∧ (∀ cid : Int, get_last_message_id .invalidJson cid = .ok (.num 0))
  ∧ (∀ (cid : Int) (kvs : List (String × JVal)), List.lookup "channels" kvs = none →
       get_last_message_id (.jsonFile (.obj kvs)) cid = .ok (.num 0))
  ∧ (∀ (cid : Int) (kvs ckvs : List (String × JVal)),
       List.lookup "channels" kvs = some (.obj ckvs) →
       List.lookup (toString cid) ckvs = none →
       get_last_message_id (.jsonFile (.obj kvs)) cid = .ok (.num 0))
  ∧ (∀ (cid : Int) (kvs ckvs ekvs : List (String × JVal)),
       List.lookup "channels" kvs = some (.obj ckvs) →
       List.lookup (toString cid) ckvs = some (.obj ekvs) →
       List.lookup "last_message_id" ekvs = none →
       get_last_message_id (.jsonFile (.obj kvs)) cid = .ok (.num 0)) := by
  refine ⟨fun cid => rfl, fun cid => rfl, fun cid => rfl, ?_, ?_, ?_⟩
  · intro cid kvs h
    simp only [get_last_message_id, load_state, pyGet]
    rw [h]
    rfl
  · intro cid kvs ckvs h1 h2
    simp only [get_last_message_id, load_state, pyGet]
    rw [h1]
    dsimp only [Option.getD_some]
    rw [h2]
    rfl
  · intro cid kvs ckvs ekvs h1 h2 h3
    simp only [get_last_message_id, load_state, pyGet]
    rw [h1]
    dsimp only [Option.getD_some]
    rw [h2]
    dsimp only [Option.getD_some]
    rw [h3]
    rfl

/-- Witness for C9 (amended) at a concrete object-shaped state without a
channels entry. -/
theorem C9_degraded_storage_amended_witness :
    get_last_message_id (.jsonFile (.obj [("total_processed", JVal.num 3)])) 7 =
      .ok (.num 0) :=
  C9_degraded_storage_amended.2.2.2.1 7 [("total_processed", JVal.num 3)] rfl

/-- C1 counterexample: a dry-run incremental run over one new message
(which even yields no signal) still commits the watermark, changing the
state file from missing to a written store — dry-run does not leave the
watermark store untouched. -/
theorem C1_dry_run_counterexample :
    run_pipeline
      { canAccess := true
        msgs := [({ id := 5, text := some "hello", timestamp := "2024-01-01T00:00:00" },
                  .badResponse "not json")]
        hasWebhook := false
        sendEnv := fun _ => .exn "" }
      { channel_id := 7, full_scan := false, dry_run := true, limit := none }
      .missing =
      .ok (.counts 1 0 0 0 0,
           .jsonFile (.obj [("channels",
             .obj [("7", .obj [("last_message_id", JVal.num 5)])])])) ∧
    get_last_message_id
      (.jsonFile (.obj [("channels",
        .obj [("7", .obj [("last_message_id", JVal.num 5)])])])) 7 = .ok (.num 5) ∧
    get_last_message_id .missing 7 = .ok (.num 0) :=
  ⟨rfl, rfl, rfl⟩

/-- C1 (amended): in dry-run mode delivery is skipped — the summary's sent,
duplicate and error counts are zero and the lifetime delivered counter is
untouched — but the watermark commit still runs exactly as in a live run;
the state file is guaranteed unchanged only when the run is also a full
scan (or commits nothing). -/
theorem C1_dry_run_behavior :
    (∀ (env : PipelineEnv) (args : RunArgs) (store : StoreFile)
       (s : Summary) (f' : StoreFile), args.dry_run = true →
       run_pipeline env args store = .ok (s, f') →
       (∀ t fnd snt d e, s = .counts t fnd snt d e → snt = 0 ∧ d = 0 ∧ e = 0) ∧
       get_processed_count f' = get_processed_count store)
  ∧ (∀ (env : PipelineEnv) (args : RunArgs) (store : StoreFile)
       (s : Summary) (f' : StoreFile), args.dry_run = true → args.full_scan = true →
       run_pipeline env args store = .ok (s, f') → f' = store) := by
  constructor
  · intro env args store s f' hdry hrun
    obtain ⟨minId, _, hcase⟩ := run_ok_cases hrun
    rcases hcase with ⟨hf, hs, _⟩ | ⟨_, ⟨base, _, hbdry, hcommit⟩, hsdry⟩
    · subst hf
      refine ⟨?_, rfl⟩
      intro t fnd snt d e hse
      rcases hs with hs | hs <;> rw [hse] at hs
      · exact Summary.noConfusion hs
      · injection hs with h1 h2 h3 h4 h5
        exact ⟨h3, h4, h5⟩
    · have hbase := hbdry hdry
      subst hbase
      constructor
      · intro t fnd snt d e hse
        obtain ⟨t2, fnd2, hs2⟩ := hsdry hdry
        rw [hse] at hs2
        injection hs2 with h1 h2 h3 h4 h5
        exact ⟨h3, h4, h5⟩
      · rcases commit_ok_cases hcommit with ⟨hf, _⟩ | ⟨_, _, hset⟩
        · rw [hf]
        · exact processed_after_set hset
  · intro env args store s f' hdry hfull hrun
    obtain ⟨minId, _, hcase⟩ := run_ok_cases hrun
    rcases hcase with ⟨hf, _, _⟩ | ⟨_, ⟨base, _, hbdry, hcommit⟩, _⟩
    · exact hf
    · have hbase := hbdry hdry
      subst hbase
      rcases commit_ok_cases hcommit with ⟨hf, _⟩ | ⟨hfull2, _, _⟩
      · exact hf
      · rw [hfull] at hfull2
        exact Bool.noConfusion hfull2

/-- Witness for C1 (amended): a concrete dry full-scan run leaves the store
unchanged. -/
theorem C1_dry_run_behavior_witness : StoreFile.missing = StoreFile.missing :=
  C1_dry_run_behavior.2
    { canAccess := false, msgs := [], hasWebhook := false, sendEnv := fun _ => .exn "" }
    { channel_id := 7, full_scan := true, dry_run := true, limit := none }
    .missing .noAccess .missing rfl rfl rfl

/-- C4: the watermark is committed only in non-full-scan mode and only when
the maximum observed message id strictly exceeds the starting id (and then
to exactly that maximum, independently of the delivery outcome); a
completed full-scan run never changes any channel's stored watermark; and
across any sequence of completed incremental runs on a channel the stored
`last_message_id` is non-decreasing. -/
theorem C4_monotonic_watermark :
    (∀ (env : PipelineEnv) (args : RunArgs) (store : StoreFile)
       (s : Summary) (f' : StoreFile) (k : Int), args.full_scan = true →
       run_pipeline env args store = .ok (s, f') →
       get_last_message_id f' k = get_last_message_id store k)
  ∧ (∀ (env : PipelineEnv) (args : RunArgs) (store : StoreFile)
       (s : Summary) (f' : StoreFile) (a : ℚ), args.full_scan = false →
       run_pipeline env args store = .ok (s, f') →
       get_last_message_id store args.channel_id = .ok (.num a) →
       ((env.canAccess = true →
           a < (collectLoop args.limit
                 (env.msgs.filter (fun mp => a < (mp.1.id : ℚ))) 0 a).2 →
           get_last_message_id f' args.channel_id =
             .ok (.num (collectLoop args.limit
                   (env.msgs.filter (fun mp => a < (mp.1.id : ℚ))) 0 a).2)) ∧
        (¬ a < (collectLoop args.limit
                 (env.msgs.filter (fun mp => a < (mp.1.id : ℚ))) 0 a).2 →
           get_last_message_id f' args.channel_id =
             get_last_message_id store args.channel_id) ∧
        (env.canAccess = false → f' = store)))
  ∧ (∀ (runs : List (PipelineEnv × RunArgs)) (store f' : StoreFile)
       (cid : Int) (a b : ℚ),
       (∀ x ∈ runs, x.2.full_scan = false ∧ x.2.channel_id = cid) →
       runSeq runs store = .ok f' →
       get_last_message_id store cid = .ok (.num a) →
       get_last_message_id f' cid = .ok (.num b) → a ≤ b) := by
  refine ⟨?_, ?_, ?_⟩
  · intro env args store s f' k hfull hrun
    exact run_full_scan_preserves hfull hrun k
  · intro env args store s f' a hfull hrun ha
    obtain ⟨minId, hres, hcase⟩ := run_ok_cases hrun
    have hmin : minId = a := by
      have hro := resolve_ok hres
      rw [hfull] at hro
      simp only [Bool.false_eq_true, if_false] at hro
      rw [ha] at hro
      simp only [Except.ok.injEq, JVal.num.injEq] at hro
      exact hro.symm
    subst hmin
    refine ⟨?_, ?_, ?_⟩
    · intro hacc hlt
      rcases hcase with ⟨_, _, hor⟩ | ⟨_, ⟨base, hbase, _, hcommit⟩, _⟩
      · rcases hor with hor | hor
        · rw [hacc] at hor
          exact Bool.noConfusion hor
        · exact absurd hlt hor
      · rcases commit_ok_cases hcommit with ⟨_, hnc⟩ | ⟨_, _, hset⟩
        · exact absurd ⟨hfull, hlt⟩ hnc
        · exact get_after_set hset
    · intro hnlt
      rcases hcase with ⟨hf, _, _⟩ | ⟨_, ⟨base, hbase, _, hcommit⟩, _⟩
      · rw [hf]
      · rcases commit_ok_cases hcommit with ⟨hf, _⟩ | ⟨_, hlt, _⟩
        · subst hf
          rcases hbase with hb | ⟨n, hinc⟩
          · rw [hb]
          · exact get_after_increment hinc args.channel_id
        · exact absurd hlt hnlt
    · intro haccf
      rcases hcase with ⟨hf, _, _⟩ | ⟨hacc, _, _⟩
      · exact hf
      · rw [haccf] at hacc
        exact Bool.noConfusion hacc
  · intro runs store f' cid a b hall hseq ha hb
    obtain ⟨b2, hb2, hab2⟩ := runSeq_advance runs store f' a hall hseq ha
    rw [hb] at hb2
    simp only [Except.ok.injEq, JVal.num.injEq] at hb2
    rw [hb2]
    exact hab2

/-- Witness for C4 at a concrete one-run incremental sequence with no new
messages. -/
theorem C4_monotonic_watermark_witness : (0 : ℚ) ≤ 0 :=
  C4_monotonic_watermark.2.2
    [({ canAccess := true, msgs := [], hasWebhook := false, sendEnv := fun _ => .exn "" },
      { channel_id := 7, full_scan := false, dry_run := false, limit := none })]
    .missing .missing 7 0 0
    (by
      intro x hx
      rw [List.mem_singleton] at hx
      subst hx
      exact ⟨rfl, rfl⟩)
    rfl rfl rfl
